import Mathlib

/-!
Verification of the SIRA event-to-alert derivation pipeline and its
notification fan-out, as implemented in the repository backend
(`app/services/alert_engine.py`, `app/services/notification_service.py`,
`app/services/websocket_manager.py`, `app/api/v1/events.py`,
`app/api/v1/alerts.py`).

The embedding is shallow: Python datetimes become integer minutes,
SQLAlchemy tables become Lean lists, dictionaries become association
lists, and exception-raising methods return `Except`.  Each definition
mirrors one function of the source; effect-free translations of the
handler bodies expose exactly the state the handlers read and write.
-/

deriving instance DecidableEq for Except

namespace Sira

/-! ## Small string helpers

Python compares `HH:MM` strings lexicographically by code point and
lower-cases rule keywords before substring search.  The repository only
uses ASCII strings for these operations, so the helpers below model
`str.lower`, `str.__le__` and the `in` substring operator on ASCII text.
-/

/-- ASCII lower-casing of one character, as `str.lower` acts on the
repository's rule keywords and locations. -/
def lowerChar (c : Char) : Char :=
  if 65 ≤ c.toNat && c.toNat ≤ 90 then Char.ofNat (c.toNat + 32) else c

/-- Character list of `s.lower()`. -/
def lowerStr (s : String) : List Char := s.toList.map lowerChar

/-- Lexicographic comparison by code point, as Python compares strings. -/
def lexLe : List Char → List Char → Bool
  | [], _ => true
  | _ :: _, [] => false
  | a :: as, b :: bs =>
    if a.toNat < b.toNat then true
    else if b.toNat < a.toNat then false
    else lexLe as bs

/-- `s <= t` on `HH:MM` strings, Python string comparison. -/
def hhmmLe (s t : String) : Bool := lexLe s.toList t.toList

/-- Does the character sequence contain `pat` as a contiguous block? -/
def seqContains (pat : List Char) : List Char → Bool
  | [] => pat.isEmpty
  | c :: rest => pat.isPrefixOf (c :: rest) || seqContains pat rest

/-- The Python `pat in hay` substring test. -/
def strContains (hay pat : String) : Bool := seqContains pat.toList hay.toList

/-- Python `x or default` on an optional string: `None` and the empty
string both fall back to the default. -/
def pyOr (x : Option String) (d : String) : String :=
  match x with
  | none => d
  | some s => if s = "" then d else s

/-! ## Data model (`app/models`)

Times are minutes on an absolute axis (`Int`), so `timedelta(hours=1)`
is the number `60` and `timedelta(minutes=t)` is `t`.
-/

/-- `app/models/movement.py`, the two fields rules read. -/
structure Movement where
  id : Nat
  status : String
  laycan_end : Int
deriving Repr, DecidableEq

/-- `app/models/event.py`: a timeline event tied to a movement. -/
structure Event where
  id : Nat
  movement_id : Nat
  timestamp : Int
  location : Option String
  event_type : String
  severity : String
  description : Option String
deriving Repr, DecidableEq

/-- `app/models/alert.py`: a derived alert row. -/
structure Alert where
  id : Nat
  severity : String
  confidence : Rat
  sla_timer : Option Int
  sla_breached : Bool := false
  domain : Option String := none
  site_zone : Option String := none
  movement_id : Option Nat := none
  event_id : Option Nat := none
  status : String := "open"
  case_id : Option Nat := none
  description : Option String := none
  rule_id : Option String := none
  rule_name : Option String := none
  assigned_to : Option Nat := none
  acknowledged_at : Option Int := none
  acknowledged_by : Option Nat := none
  resolved_at : Option Int := none
  resolved_by : Option Nat := none
  resolution_notes : Option String := none
  created_at : Int
deriving Repr, DecidableEq

/-- `app/models/user.py`, the fields audience resolution reads. -/
structure User where
  id : Nat
  role : String
  email : String
  is_active : Bool
deriving Repr, DecidableEq

/-! ## Rule registry (`app/services/alert_engine.py`) -/

/-- Context handed to every rule by `AlertDerivationEngine._build_context`. -/
structure Context where
  timestamp : Int
  movement : Option Movement := none
  recent_events : List Event := []

/-- One alert rule: metadata plus the two overridable methods.  A Python
exception raised by a method is an `Except.error`. -/
structure AlertRule where
  rule_id : String
  name : String
  severity : String
  domain : String
  confidence : Rat
  sla_minutes : Int
  evaluate : Event → Context → Except String Bool
  generate_description : Event → Context → Except String String

/-- `SecurityEventRule`. -/
def securityEventRule : AlertRule where
  rule_id := "RULE_SEC_001"
  name := "Security Event Detection"
  severity := "High"
  domain := "Security"
  confidence := 85 / 100
  sla_minutes := 30
  evaluate := fun e _ => .ok (e.event_type == "security")
  generate_description := fun e _ =>
    .ok ("Security event detected: " ++ pyOr e.description "No description"
      ++ " at " ++ pyOr e.location "Unknown location")

/-- `CriticalSeverityRule`. -/
def criticalSeverityRule : AlertRule where
  rule_id := "RULE_SEV_001"
  name := "Critical Severity Event"
  severity := "Critical"
  domain := "Operations"
  confidence := 95 / 100
  sla_minutes := 15
  evaluate := fun e _ => .ok (e.severity == "critical")
  generate_description := fun e _ =>
    .ok ("Critical event: " ++ pyOr e.description "Critical severity event detected")

/-- The zone list of `HighRiskZoneRule`. -/
def highRiskZones : List String :=
  ["Red Sea", "Gulf of Aden", "Strait of Hormuz",
   "Gulf of Guinea", "Singapore Strait", "Malacca Strait"]

/-- `HighRiskZoneRule`: raw lower-cased substring containment against the
free-text location. -/
def highRiskZoneRule : AlertRule where
  rule_id := "RULE_ZONE_001"
  name := "High Risk Zone Alert"
  severity := "High"
  domain := "Maritime Security"
  confidence := 8 / 10
  sla_minutes := 45
  evaluate := fun e _ =>
    .ok (match e.location with
      | none => false
      | some loc =>
        if loc = "" then false
        else highRiskZones.any (fun z => seqContains (lowerStr z) (lowerStr loc)))
  generate_description := fun e _ =>
    .ok ("Event in high-risk zone: " ++ e.location.getD "")

/-- `DelayDetectionRule`: operational event on an active movement past
its laycan end. -/
def delayDetectionRule : AlertRule where
  rule_id := "RULE_DELAY_001"
  name := "Movement Delay Detection"
  severity := "Medium"
  domain := "Operations"
  confidence := 75 / 100
  sla_minutes := 120
  evaluate := fun e ctx =>
    .ok (match ctx.movement with
      | none => false
      | some m =>
        e.event_type == "operational" && decide (m.laycan_end < ctx.timestamp)
          && m.status == "active")
  generate_description := fun _ ctx =>
    .ok ("Delay detected for movement "
      ++ (match ctx.movement with
          | some m => toString m.id
          | none => "Unknown")
      ++ ": Past laycan end date")

/-- The keyword list of `AnomalyDetectionRule`. -/
def anomalyKeywords : List String :=
  ["suspicious", "unusual", "unexpected", "unauthorized",
   "unscheduled", "deviation", "anomaly", "threat"]

/-- `AnomalyDetectionRule`: keyword search in the lower-cased description. -/
def anomalyDetectionRule : AlertRule where
  rule_id := "RULE_ANOM_001"
  name := "Anomaly Detection"
  severity := "Medium"
  domain := "Intelligence"
  confidence := 7 / 10
  sla_minutes := 60
  evaluate := fun e _ =>
    .ok (match e.description with
      | none => false
      | some d =>
        if d = "" then false
        else anomalyKeywords.any (fun k => seqContains k.toList (lowerStr d)))
  generate_description := fun e _ =>
    .ok ("Potential anomaly detected: " ++ e.description.getD "")

/-- The registry `AlertDerivationEngine.__init__` installs. -/
def defaultRules : List AlertRule :=
  [securityEventRule, criticalSeverityRule, highRiskZoneRule,
   delayDetectionRule, anomalyDetectionRule]

/-! ## Alert derivation engine -/

/-- The alert table together with the autoincrement counter. -/
structure EngineState where
  alerts : List Alert
  next_alert_id : Nat
deriving Repr, DecidableEq

/-- The duplicate query of `_create_alert`: same event, same rule,
created inside the trailing 60-minute window. -/
def isDuplicateOf (eventId : Nat) (ruleId : String) (now : Int) (a : Alert) : Bool :=
  a.event_id == some eventId && a.rule_id == some ruleId
    && decide (now - 60 ≤ a.created_at)

/-- `AlertDerivationEngine._create_alert`: duplicate check, then build and
persist the alert; a raising `generate_description` is caught and yields
`none` with the store rolled back. -/
def createAlert (st : EngineState) (e : Event) (r : AlertRule) (ctx : Context)
    (now : Int) : Option Alert × EngineState :=
  if st.alerts.any (isDuplicateOf e.id r.rule_id now) then
    (none, st)
  else
    match r.generate_description e ctx with
    | .error _ => (none, st)
    | .ok desc =>
      let a : Alert :=
        { id := st.next_alert_id
          severity := r.severity
          confidence := r.confidence
          sla_timer := some r.sla_minutes
          sla_breached := false
          domain := some r.domain
          site_zone := e.location
          movement_id := some e.movement_id
          event_id := some e.id
          status := "open"
          description := some desc
          rule_id := some r.rule_id
          rule_name := some r.name
          created_at := now }
      (some a, { alerts := st.alerts ++ [a], next_alert_id := st.next_alert_id + 1 })

/-- The rule loop of `AlertDerivationEngine.process_event`: a raising
`evaluate` is caught and the remaining rules still run. -/
def processEventAux (e : Event) (ctx : Context) (now : Int) :
    List AlertRule → EngineState → List Alert × EngineState
  | [], st => ([], st)
  | r :: rest, st =>
    match r.evaluate e ctx with
    | .error _ => processEventAux e ctx now rest st
    | .ok false => processEventAux e ctx now rest st
    | .ok true =>
      match createAlert st e r ctx now with
      | (none, st1) => processEventAux e ctx now rest st1
      | (some a, st1) =>
        let res := processEventAux e ctx now rest st1
        (a :: res.1, res.2)

/-- `AlertDerivationEngine.process_event`. -/
def processEvent (st : EngineState) (rules : List AlertRule) (e : Event)
    (ctx : Context) (now : Int) : List Alert × EngineState :=
  processEventAux e ctx now rules st

/-- `AlertDerivationEngine._build_context`: movement snapshot plus the
bounded recent-event window (24 hours, newest first, at most 10). -/
def buildContext (movements : List Movement) (events : List Event)
    (e : Event) (now : Int) : Context :=
  if e.movement_id == 0 then
    { timestamp := now }
  else
    { timestamp := now
      movement := movements.find? (fun m => m.id == e.movement_id)
      recent_events :=
        ((events.filter (fun ev =>
            ev.movement_id == e.movement_id
              && decide (now - 24 * 60 ≤ ev.timestamp))).mergeSort
          (fun a b => decide (b.timestamp ≤ a.timestamp))).take 10 }

/-! ## SLA sweep (`AlertDerivationEngine.check_sla_breaches`) -/

/-- The query filter of the sweep: status in `{open, acknowledged}`,
flag still false, timer present. -/
def slaCandidate (a : Alert) : Bool :=
  (a.status == "open" || a.status == "acknowledged")
    && a.sla_breached == false && a.sla_timer.isSome

/-- The breach test inside the sweep loop: `now > created_at + sla_timer`. -/
def slaDeadlinePassed (now : Int) (a : Alert) : Bool :=
  match a.sla_timer with
  | none => false
  | some t => decide (a.created_at + t < now)

/-- `check_sla_breaches`: returns the alert table after the commit and
the list of alerts the sweep flagged, flag set, in table order. -/
def checkSlaBreaches (now : Int) (db : List Alert) : List Alert × List Alert :=
  (db.map (fun a =>
      if slaCandidate a && slaDeadlinePassed now a then
        { a with sla_breached := true }
      else a),
   (db.filter (fun a => slaCandidate a && slaDeadlinePassed now a)).map
     (fun a => { a with sla_breached := true }))

/-! ## Alert API operations (`app/api/v1/alerts.py`)

Each handler is modelled on a single alert row after the 404 lookup;
`assign_alert` also checks that the assignee exists.
-/

/-- `app/schemas/alert.py` `AlertUpdate`: the only fields a PUT may set.
`none` is an unset field (`exclude_unset=True`). -/
structure AlertUpdate where
  status : Option String := none
  assigned_to : Option Nat := none
  case_id : Option Nat := none
  resolution_notes : Option String := none
deriving Repr, DecidableEq

/-- `update_alert`: copy every set field of the payload onto the row. -/
def applyAlertUpdate (u : AlertUpdate) (a : Alert) : Alert :=
  let a1 := match u.status with
    | some s => { a with status := s }
    | none => a
  let a2 := match u.assigned_to with
    | some v => { a1 with assigned_to := some v }
    | none => a1
  let a3 := match u.case_id with
    | some v => { a2 with case_id := some v }
    | none => a2
  match u.resolution_notes with
  | some v => { a3 with resolution_notes := some v }
  | none => a3

/-- `acknowledge_alert`: only an open alert may be acknowledged. -/
def acknowledgeAlert (now : Int) (userId : Nat) (a : Alert) : Except String Alert :=
  if a.status == "open" then
    .ok { a with
      status := "acknowledged"
      acknowledged_at := some now
      acknowledged_by := some userId }
  else
    .error "Alert is not in open status"

/-- `assign_alert`: 404 when the assignee does not exist, otherwise set
status and assignee with no check of the current status. -/
def assignAlertOp (userIds : List Nat) (userId : Nat) (a : Alert) :
    Except String Alert :=
  if userIds.contains userId then
    .ok { a with status := "assigned", assigned_to := some userId }
  else
    .error "User not found"

/-- `resolve_alert`: close the alert from any current status. -/
def resolveAlert (now : Int) (userId : Nat) (notes : String) (a : Alert) : Alert :=
  { a with
    status := "closed"
    resolved_at := some now
    resolved_by := some userId
    resolution_notes := some notes }

/-! ## Notification preferences and router
(`app/models/notification.py`, `app/services/notification_service.py`) -/

/-- `NotificationPreference` row, defaults as in the model. -/
structure NotificationPreference where
  email_enabled : Bool := true
  email_critical_alerts : Bool := true
  email_high_alerts : Bool := true
  email_medium_alerts : Bool := false
  email_low_alerts : Bool := false
  email_case_updates : Bool := true
  websocket_enabled : Bool := true
  websocket_sound : Bool := true
  quiet_hours_enabled : Bool := false
  quiet_hours_start : Option String := none
  quiet_hours_end : Option String := none
deriving Repr, DecidableEq

/-- The quiet-hours gate inside `_should_send_email`: both bounds truthy
and `start <= now <= end` as Python string comparison. -/
def quietRangeHit (s e : Option String) (nowHM : String) : Bool :=
  match s, e with
  | some s, some e =>
    !(s == "") && !(e == "") && hhmmLe s nowHM && hhmmLe nowHM e
  | _, _ => false

/-- `NotificationService._should_send_email`. -/
def shouldSendEmail (prefs : Option NotificationPreference)
    (notificationType : String) (severity : Option String)
    (nowHM : String) : Bool :=
  match prefs with
  | none => severity == some "Critical" || severity == some "High"
  | some p =>
    if !p.email_enabled then false
    else if p.quiet_hours_enabled
        && quietRangeHit p.quiet_hours_start p.quiet_hours_end nowHM then
      severity == some "Critical"
    else if notificationType == "alert" then
      match severity with
      | some "Critical" => p.email_critical_alerts
      | some "High" => p.email_high_alerts
      | some "Medium" => p.email_medium_alerts
      | some "Low" => p.email_low_alerts
      | _ => false
    else if notificationType == "case_update" then p.email_case_updates
    else false

/-- The websocket gate of `notify_alert`: send when the user has no
preference row or websocket delivery is enabled. -/
def shouldSendWebsocket (prefs : Option NotificationPreference) : Bool :=
  match prefs with
  | none => true
  | some p => p.websocket_enabled

/-- The severity-to-priority map of `notify_alert`. -/
def priorityFor (severity : String) : String :=
  if severity == "Critical" then "urgent"
  else if severity == "High" then "high"
  else if severity == "Medium" then "normal"
  else if severity == "Low" then "low"
  else "normal"

/-- One row of the append-only notification log
(`NotificationService._log_notification`). -/
structure LogEntry where
  user_id : Nat
  notification_type : String
  channel : String
  priority : String := "normal"
  is_delivered : Bool := false
  delivery_error : Option String := none
deriving Repr, DecidableEq

/-! ## Connection manager (`app/services/websocket_manager.py`)

The registry is a pair of dictionaries: user id to live connection set,
room id to member set.  Sets become lists; the runtime disposition of a
socket (reachable or found closed during a send) is the oracle
`closed`. -/

abbrev UserId := Nat
abbrev ConnId := Nat

/-- `ConnectionManager.active_connections` and `.rooms`. -/
structure ConnState where
  active : List (UserId × List ConnId)
  rooms : List (String × List UserId)
deriving Repr, DecidableEq

/-- The connection set registered for a user (empty when absent). -/
def connsOf (st : ConnState) (u : UserId) : List ConnId :=
  (st.active.lookup u).getD []

/-- The member set of a room (empty when absent). -/
def roomMembers (st : ConnState) (roomId : String) : List UserId :=
  (st.rooms.lookup roomId).getD []

/-- Replace the connection set stored for one user. -/
def updateConns : List (UserId × List ConnId) → UserId → List ConnId →
    List (UserId × List ConnId)
  | [], _, _ => []
  | (v, cs) :: rest, u, new =>
    if v == u then (v, new) :: rest else (v, cs) :: updateConns rest u new

/-- Drop the registry entry of one user. -/
def removeUser : List (UserId × List ConnId) → UserId →
    List (UserId × List ConnId)
  | [], _ => []
  | (v, cs) :: rest, u => if v == u then rest else (v, cs) :: removeUser rest u

/-- `ConnectionManager.send_personal_message`: send to every registered
connection of the user; a connection found closed raises inside the
loop, is collected, and is pruned by `disconnect` afterwards (removing
the user entry when its set drains empty).  Returns the new registry and
the connections actually reached. -/
def sendPersonalMessage (closed : ConnId → Bool) (u : UserId)
    (st : ConnState) : ConnState × List ConnId :=
  match st.active.lookup u with
  | none => (st, [])
  | some conns =>
    let live := conns.filter (fun c => !closed c)
    if (conns.filter closed).isEmpty then
      (st, live)
    else
      ({ st with active :=
          if live.isEmpty then removeUser st.active u
          else updateConns st.active u live },
       live)

/-- The member loop of `ConnectionManager.broadcast_to_room`. -/
def broadcastRoomAux (closed : ConnId → Bool) :
    List UserId → ConnState → ConnState × List ConnId
  | [], st => (st, [])
  | u :: rest, st =>
    let r1 := sendPersonalMessage closed u st
    let r2 := broadcastRoomAux closed rest r1.1
    (r2.1, r1.2 ++ r2.2)

/-- `ConnectionManager.broadcast_to_room`: deliver to every connection of
every user currently in the room; an unknown room is a no-op. -/
def broadcastToRoom (closed : ConnId → Bool) (roomId : String)
    (st : ConnState) : ConnState × List ConnId :=
  match st.rooms.lookup roomId with
  | none => (st, [])
  | some uids => broadcastRoomAux closed uids st

/-! ## Notification router (`app/services/notification_service.py`) -/

/-- Audience resolution of `notify_alert`: the explicit recipient list,
else all active security personnel. -/
def alertAudience (allUsers : List User) (target : Option (List Nat)) :
    List User :=
  match target with
  | some ids => allUsers.filter (fun u => ids.contains u.id && u.is_active)
  | none => allUsers.filter (fun u =>
      (u.role == "security_lead" || u.role == "supervisor" || u.role == "admin")
        && u.is_active)

/-- Audience of `notify_sla_breach`: active supervisors and admins. -/
def slaBreachAudience (allUsers : List User) : List User :=
  allUsers.filter (fun u =>
    (u.role == "supervisor" || u.role == "admin") && u.is_active)

/-- Everything a notification call produces: the registry after the
pushes, the connections reached, the outbound email recipients, and the
rows appended to the notification log. -/
structure NotifyResult where
  conn : ConnState
  pushDeliveries : List ConnId
  emailsSent : List String
  logs : List LogEntry
deriving Repr, DecidableEq

/-- The recipient loop of `NotificationService.notify_alert`: per user,
an optional personal push (logged as delivered with no error, whatever
the registry holds) and an optional email (logged with the dispatcher
outcome). -/
def notifyAlertAux (prefsDb : List (Nat × NotificationPreference))
    (closed : ConnId → Bool) (severity : String) (nowHM : String)
    (emailOk : String → Bool) : List User → ConnState → NotifyResult
  | [], st => ⟨st, [], [], []⟩
  | u :: rest, st =>
    let prefs := prefsDb.lookup u.id
    let wsStep : ConnState × List ConnId × List LogEntry :=
      if shouldSendWebsocket prefs then
        let r := sendPersonalMessage closed u.id st
        (r.1, r.2,
         [{ user_id := u.id
            notification_type := "alert"
            channel := "websocket"
            priority := priorityFor severity
            is_delivered := true }])
      else (st, [], [])
    let emailStep : List String × List LogEntry :=
      if shouldSendEmail prefs "alert" (some severity) nowHM then
        let ok := emailOk u.email
        ([u.email],
         [{ user_id := u.id
            notification_type := "alert"
            channel := "email"
            priority := priorityFor severity
            is_delivered := ok
            delivery_error := if ok then none else some "Email delivery failed" }])
      else ([], [])
    let r := notifyAlertAux prefsDb closed severity nowHM emailOk rest wsStep.1
    ⟨r.conn, wsStep.2.1 ++ r.pushDeliveries, emailStep.1 ++ r.emailsSent,
     wsStep.2.2 ++ emailStep.2 ++ r.logs⟩

/-- `NotificationService.notify_alert`. -/
def notifyAlert (allUsers : List User) (target : Option (List Nat))
    (prefsDb : List (Nat × NotificationPreference)) (closed : ConnId → Bool)
    (severity : String) (nowHM : String) (emailOk : String → Bool)
    (st : ConnState) : NotifyResult :=
  notifyAlertAux prefsDb closed severity nowHM emailOk
    (alertAudience allUsers target) st

/-- The recipient loop of `NotificationService.notify_sla_breach`: per
supervisor or admin it broadcasts the breach message to the whole
`supervisors` room again, emails that user, and logs one email-channel
row; preferences are never consulted. -/
def notifySlaBreachAux (closed : ConnId → Bool) :
    List User → ConnState → NotifyResult
  | [], st => ⟨st, [], [], []⟩
  | u :: rest, st =>
    let r1 := broadcastToRoom closed "supervisors" st
    let r := notifySlaBreachAux closed rest r1.1
    ⟨r.conn, r1.2 ++ r.pushDeliveries, u.email :: r.emailsSent,
     { user_id := u.id
       notification_type := "sla_breach"
       channel := "email"
       priority := "urgent"
       is_delivered := true } :: r.logs⟩

/-- `NotificationService.notify_sla_breach`. -/
def notifySlaBreach (allUsers : List User) (closed : ConnId → Bool)
    (st : ConnState) : NotifyResult :=
  notifySlaBreachAux closed (slaBreachAudience allUsers) st

/-- The complete recurring SLA pipeline as wired in the repository:
`check_sla_breaches` updates the alert table and returns the breached
alerts, and no code path under `src/` ever passes that result to
`NotificationService.notify_sla_breach` or to any other notification
call (the notifier has no caller), so the sweep emits no log rows and
no push deliveries. -/
def slaSweepPipeline (now : Int) (db : List Alert) :
    (List Alert × List Alert) × List LogEntry × List ConnId :=
  (checkSlaBreaches now db, [], [])

/-! ## Event ingestion (`app/api/v1/events.py`) -/

/-- `app/schemas/event.py` `EventCreate`, the fields ingestion uses. -/
structure EventCreate where
  movement_id : Nat
  event_type : String
  severity : String := "info"
  location : Option String := none
  description : Option String := none
deriving Repr, DecidableEq

/-- What the `create_event` handler produced: the persisted event, the
alert store after the handler returned, and the alerts the handler
created synchronously. -/
structure CreateEventResult where
  event : Event
  engine : EngineState
  createdAlerts : List Alert
deriving Repr, DecidableEq

/-- `create_event`: 404 unless the movement exists; persist the event;
when the event is urgent (`security` type or `critical` severity) run the
rule engine synchronously before returning.  For any other event the
handler returns at once: it accepts a `BackgroundTasks` argument but
never schedules `process_event_alerts` (or anything else) on it, so the
alert store is left untouched. -/
def createEvent (movements : List Movement) (eventsDb : List Event)
    (st : EngineState) (ed : EventCreate) (nextEventId : Nat) (now : Int) :
    Except String CreateEventResult :=
  match movements.find? (fun m => m.id == ed.movement_id) with
  | none => .error "Movement not found"
  | some _ =>
    let e : Event :=
      { id := nextEventId
        movement_id := ed.movement_id
        timestamp := now
        location := ed.location
        event_type := ed.event_type
        severity := ed.severity
        description := ed.description }
    if ed.event_type == "security" || ed.severity == "critical" then
      let ctx := buildContext movements (eventsDb ++ [e]) e now
      let r := processEvent st defaultRules e ctx now
      .ok ⟨e, r.2, r.1⟩
    else
      .ok ⟨e, st, []⟩

/-! ## Engine lemmas -/

theorem createAlert_none_snd {st : EngineState} {e : Event} {r : AlertRule}
    {ctx : Context} {now : Int} {st' : EngineState}
    (h : createAlert st e r ctx now = (none, st')) : st' = st := by
  unfold createAlert at h
  split at h
  · exact (Prod.mk.injEq _ _ _ _ ▸ h).2.symm
  · split at h
    · exact (Prod.mk.injEq _ _ _ _ ▸ h).2.symm
    · simp at h

theorem createAlert_some_spec {st : EngineState} {e : Event} {r : AlertRule}
    {ctx : Context} {now : Int} {a : Alert} {st' : EngineState}
    (h : createAlert st e r ctx now = (some a, st')) :
    st'.alerts = st.alerts ++ [a] ∧ a.rule_id = some r.rule_id
      ∧ a.event_id = some e.id ∧ a.created_at = now
      ∧ st.alerts.any (isDuplicateOf e.id r.rule_id now) = false := by
  unfold createAlert at h
  split at h
  next => simp at h
  next hdup =>
    split at h
    next => simp at h
    next desc hdesc =>
      obtain ⟨h1, h2⟩ := Prod.mk.injEq _ _ _ _ ▸ h
      injection h1 with h1
      subst h1
      refine ⟨by rw [← h2], rfl, rfl, rfl, ?_⟩
      simpa using hdup

theorem processEventAux_alerts_eq (e : Event) (ctx : Context) (now : Int) :
    ∀ (rules : List AlertRule) (st : EngineState),
      (processEventAux e ctx now rules st).2.alerts
        = st.alerts ++ (processEventAux e ctx now rules st).1 := by
  intro rules
  induction rules with
  | nil => intro st; simp [processEventAux]
  | cons r rest ih =>
    intro st
    simp only [processEventAux]
    cases hev : r.evaluate e ctx with
    | error msg => simpa [hev] using ih st
    | ok b =>
      cases b with
      | false => simpa [hev] using ih st
      | true =>
        simp only [hev]
        cases hca : createAlert st e r ctx now with
        | mk oa st1 =>
          cases oa with
          | none =>
            have hst : st1 = st := createAlert_none_snd hca
            subst hst
            simpa using ih _
          | some a =>
            obtain ⟨h1, -, -, -, -⟩ := createAlert_some_spec hca
            simp [ih st1, h1, List.append_assoc]

theorem processEventAux_created_mem (e : Event) (ctx : Context) (now : Int) :
    ∀ (rules : List AlertRule) (st : EngineState) (a : Alert),
      a ∈ (processEventAux e ctx now rules st).1 →
      ∃ r ∈ rules, a.rule_id = some r.rule_id ∧ a.event_id = some e.id
        ∧ a.created_at = now := by
  intro rules
  induction rules with
  | nil => intro st a h; simp [processEventAux] at h
  | cons r rest ih =>
    intro st a h
    simp only [processEventAux] at h
    cases hev : r.evaluate e ctx with
    | error msg =>
      rw [hev] at h
      obtain ⟨r', hr', hspec⟩ := ih st a h
      exact ⟨r', List.mem_cons_of_mem _ hr', hspec⟩
    | ok b =>
      cases b with
      | false =>
        rw [hev] at h
        obtain ⟨r', hr', hspec⟩ := ih st a h
        exact ⟨r', List.mem_cons_of_mem _ hr', hspec⟩
      | true =>
        rw [hev] at h
        cases hca : createAlert st e r ctx now with
        | mk oa st1 =>
          rw [hca] at h
          cases oa with
          | none =>
            obtain ⟨r', hr', hspec⟩ := ih st1 a h
            exact ⟨r', List.mem_cons_of_mem _ hr', hspec⟩
          | some a0 =>
            simp only [List.mem_cons] at h
            cases h with
            | inl h =>
              subst h
              obtain ⟨_, h2, h3, h4, _⟩ := createAlert_some_spec hca
              exact ⟨r, List.mem_cons_self _ _, h2, h3, h4⟩
            | inr h =>
              obtain ⟨r', hr', hspec⟩ := ih st1 a h
              exact ⟨r', List.mem_cons_of_mem _ hr', hspec⟩

theorem processEventAux_foreign_filter (e : Event) (ctx : Context) (now : Int)
    (rules : List AlertRule) (st : EngineState) (rid : String)
    (h : ∀ r' ∈ rules, r'.rule_id ≠ rid) :
    (processEventAux e ctx now rules st).1.filter
      (fun a => a.rule_id == some rid) = [] := by
  rw [List.filter_eq_nil_iff]
  intro a ha
  obtain ⟨r', hr', hrid, _, _⟩ := processEventAux_created_mem e ctx now rules st a ha
  simp only [hrid, beq_iff_eq, Option.some.injEq]
  exact h r' hr'

theorem processEventAux_any_mono (e : Event) (ctx : Context) (now : Int)
    (rules : List AlertRule) (st : EngineState) (p : Alert → Bool)
    (h : st.alerts.any p = true) :
    (processEventAux e ctx now rules st).2.alerts.any p = true := by
  rw [processEventAux_alerts_eq]
  simp [List.any_append, h]

theorem createAlert_none_dup {st : EngineState} {e : Event} {r : AlertRule}
    {ctx : Context} {now : Int} {st' : EngineState}
    (h : createAlert st e r ctx now = (none, st'))
    (hdesc : ∃ d, r.generate_description e ctx = .ok d) :
    st.alerts.any (isDuplicateOf e.id r.rule_id now) = true := by
  obtain ⟨d, hd⟩ := hdesc
  unfold createAlert at h
  split at h
  next hdup => simpa using hdup
  next =>
    rw [hd] at h
    simp at h

theorem processEventAux_count (e : Event) (ctx : Context) (now : Int) :
    ∀ (rules : List AlertRule) (st : EngineState) (r : AlertRule),
      r ∈ rules → (rules.map AlertRule.rule_id).Nodup →
      r.evaluate e ctx = .ok true →
      (∃ d, r.generate_description e ctx = .ok d) →
      ((processEventAux e ctx now rules st).1.filter
          (fun a => a.rule_id == some r.rule_id)).length
        = if st.alerts.any (isDuplicateOf e.id r.rule_id now) = true then 0 else 1 := by
  intro rules
  induction rules with
  | nil => intro st r hr; simp at hr
  | cons r0 rest ih =>
    intro st r hr hnd hev hdesc
    rw [List.map_cons, List.nodup_cons] at hnd
    obtain ⟨hnotin, hndtail⟩ := hnd
    rcases List.mem_cons.mp hr with hr0 | hrmem
    · subst hr0
      have hforeign : ∀ r' ∈ rest, r'.rule_id ≠ r.rule_id := by
        intro r' hr' hEq
        exact hnotin (hEq ▸ List.mem_map_of_mem AlertRule.rule_id hr')
      simp only [processEventAux, hev]
      cases hca : createAlert st e r ctx now with
      | mk oa st1 =>
        cases oa with
        | none =>
          have hst : st1 = st := createAlert_none_snd hca
          subst hst
          have hdup := createAlert_none_dup hca hdesc
          rw [if_pos hdup]
          simp [processEventAux_foreign_filter e ctx now rest _ _ hforeign]
        | some a =>
          obtain ⟨h1, h2, h3, h4, h5⟩ := createAlert_some_spec hca
          rw [if_neg (by simp [h5])]
          simp only [List.filter_cons]
          rw [processEventAux_foreign_filter e ctx now rest _ _ hforeign]
          simp [h2]
    · have hne : r0.rule_id ≠ r.rule_id := by
        intro hEq
        exact hnotin (hEq ▸ List.mem_map_of_mem AlertRule.rule_id hrmem)
      simp only [processEventAux]
      cases hev0 : r0.evaluate e ctx with
      | error m => exact ih st r hrmem hndtail hev hdesc
      | ok b =>
        cases b with
        | false => exact ih st r hrmem hndtail hev hdesc
        | true =>
          cases hca : createAlert st e r0 ctx now with
          | mk oa st1 =>
            cases oa with
            | none =>
              have hst : st1 = st := createAlert_none_snd hca
              subst hst
              exact ih _ r hrmem hndtail hev hdesc
            | some a =>
              obtain ⟨h1, h2, -, -, -⟩ := createAlert_some_spec hca
              have hskip : (a.rule_id == some r.rule_id) = false := by
                simp [h2, hne]
              have hdupEq : st1.alerts.any (isDuplicateOf e.id r.rule_id now)
                  = st.alerts.any (isDuplicateOf e.id r.rule_id now) := by
                rw [h1]
                simp [List.any_append, isDuplicateOf, h2, hne]
              dsimp only
              rw [List.filter_cons_of_neg (by simp [hskip])]
              rw [ih st1 r hrmem hndtail hev hdesc, hdupEq]

theorem processEventAux_suppressed (e : Event) (ctx : Context) (now : Int) :
    ∀ (rules : List AlertRule) (st : EngineState),
      (∀ r ∈ rules, r.evaluate e ctx = .ok true →
        st.alerts.any (isDuplicateOf e.id r.rule_id now) = true
          ∨ ∀ d, r.generate_description e ctx ≠ .ok d) →
      processEventAux e ctx now rules st = ([], st) := by
  intro rules
  induction rules with
  | nil => intro st _; rfl
  | cons r0 rest ih =>
    intro st h
    have htail : ∀ r ∈ rest, r.evaluate e ctx = .ok true →
        st.alerts.any (isDuplicateOf e.id r.rule_id now) = true
          ∨ ∀ d, r.generate_description e ctx ≠ .ok d :=
      fun r hr => h r (List.mem_cons_of_mem _ hr)
    simp only [processEventAux]
    cases hev : r0.evaluate e ctx with
    | error m => exact ih st htail
    | ok b =>
      cases b with
      | false => exact ih st htail
      | true =>
        have hca : createAlert st e r0 ctx now = (none, st) := by
          rcases h r0 (List.mem_cons_self _ _) hev with hdup | hng
          · unfold createAlert
            rw [if_pos hdup]
          · unfold createAlert
            split
            · rfl
            · cases hg : r0.generate_description e ctx with
              | error m => rfl
              | ok d => exact absurd hg (hng d)
        rw [hca]
        exact ih st htail

theorem processEventAux_establishes_dup (e : Event) (ctx : Context) (now : Int) :
    ∀ (rules : List AlertRule) (st : EngineState) (r : AlertRule),
      r ∈ rules → r.evaluate e ctx = .ok true →
      (∃ d, r.generate_description e ctx = .ok d) →
      (processEventAux e ctx now rules st).2.alerts.any
        (isDuplicateOf e.id r.rule_id now) = true := by
  intro rules
  induction rules with
  | nil => intro st r hr; simp at hr
  | cons r0 rest ih =>
    intro st r hr hev hdesc
    rcases List.mem_cons.mp hr with hr0 | hrmem
    · subst hr0
      simp only [processEventAux, hev]
      cases hca : createAlert st e r ctx now with
      | mk oa st1 =>
        cases oa with
        | none =>
          have hst : st1 = st := createAlert_none_snd hca
          subst hst
          exact processEventAux_any_mono e ctx now rest _ _
            (createAlert_none_dup hca hdesc)
        | some a =>
          obtain ⟨h1, h2, h3, h4, -⟩ := createAlert_some_spec hca
          have ha : isDuplicateOf e.id r.rule_id now a = true := by
            simp only [isDuplicateOf, h2, h3, h4]
            simp
            try omega
          have hany : st1.alerts.any (isDuplicateOf e.id r.rule_id now) = true := by
            rw [h1]
            simp [List.any_append, ha]
          simpa using processEventAux_any_mono e ctx now rest st1 _ hany
    · simp only [processEventAux]
      cases hev0 : r0.evaluate e ctx with
      | error m => exact ih st r hrmem hev hdesc
      | ok b =>
        cases b with
        | false => exact ih st r hrmem hev hdesc
        | true =>
          cases hca : createAlert st e r0 ctx now with
          | mk oa st1 =>
            cases oa with
            | none => exact ih st1 r hrmem hev hdesc
            | some a => simpa using ih st1 r hrmem hev hdesc

/-- Claim C1: for every event processed by the engine, exactly one alert
is created per rule that evaluates true, unless an alert with the same
(event id, rule id) pair was created within the preceding 60 minutes, in
which case zero alerts are created for that rule as a normal no-op; and
re-processing the same event immediately afterwards creates no new
alerts at all. -/
theorem C1_dedup_exactly_one_per_rule (st : EngineState)
    (rules : List AlertRule) (e : Event) (ctx : Context) (now : Int)
    (r : AlertRule) (hr : r ∈ rules)
    (hnd : (rules.map AlertRule.rule_id).Nodup)
    (hev : r.evaluate e ctx = .ok true)
    (hdesc : ∃ d, r.generate_description e ctx = .ok d) :
    (((processEvent st rules e ctx now).1.filter
        (fun a => a.rule_id == some r.rule_id)).length
      = if st.alerts.any (isDuplicateOf e.id r.rule_id now) = true then 0 else 1)
    ∧ processEvent (processEvent st rules e ctx now).2 rules e ctx now
        = ([], (processEvent st rules e ctx now).2) := by
  constructor
  · exact processEventAux_count e ctx now rules st r hr hnd hev hdesc
  · apply processEventAux_suppressed
    intro r' hr' hev'
    cases hg : r'.generate_description e ctx with
    | ok d =>
      exact Or.inl
        (processEventAux_establishes_dup e ctx now rules st r' hr' hev' ⟨d, hg⟩)
    | error m =>
      exact Or.inr (fun d hd => Except.noConfusion hd)

/-- The event of the spec scenario: a critical security event with an
anomaly keyword in its description. -/
def c1Event : Event :=
  { id := 1, movement_id := 7, timestamp := 0, location := none,
    event_type := "security", severity := "critical",
    description := some "unauthorized access" }

/-- An empty context (no movement, no recent events). -/
def c1Ctx : Context := { timestamp := 0 }

/-- Witness for C1 at the security rule on the spec scenario event. -/
theorem C1_dedup_exactly_one_per_rule_witness :
    securityEventRule ∈ defaultRules
    ∧ (defaultRules.map AlertRule.rule_id).Nodup
    ∧ securityEventRule.evaluate c1Event c1Ctx = .ok true
    ∧ (∃ d, securityEventRule.generate_description c1Event c1Ctx = .ok d)
    ∧ ((((processEvent ⟨[], 1⟩ defaultRules c1Event c1Ctx 0).1.filter
          (fun a => a.rule_id == some securityEventRule.rule_id)).length
        = if (⟨[], 1⟩ : EngineState).alerts.any
              (isDuplicateOf c1Event.id securityEventRule.rule_id 0) = true
          then 0 else 1)
      ∧ processEvent (processEvent ⟨[], 1⟩ defaultRules c1Event c1Ctx 0).2
            defaultRules c1Event c1Ctx 0
          = ([], (processEvent ⟨[], 1⟩ defaultRules c1Event c1Ctx 0).2)) :=
  ⟨by simp [defaultRules], by decide, rfl, ⟨_, rfl⟩,
   C1_dedup_exactly_one_per_rule ⟨[], 1⟩ defaultRules c1Event c1Ctx 0
     securityEventRule (by simp [defaultRules]) (by decide) rfl ⟨_, rfl⟩⟩

/-- Claim C6: a rule whose `evaluate` or `generate_description` raises is
isolated: processing an event with the throwing rule in the registry
creates exactly the alerts, and leaves exactly the state, of processing
it without that rule — every remaining rule is still evaluated. -/
theorem C6_throwing_rule_is_isolated (st : EngineState)
    (pre post : List AlertRule) (rb : AlertRule) (e : Event) (ctx : Context)
    (now : Int) (msg : String)
    (hb : rb.evaluate e ctx = .error msg
      ∨ (rb.evaluate e ctx = .ok true
          ∧ rb.generate_description e ctx = .error msg)) :
    processEvent st (pre ++ rb :: post) e ctx now
      = processEvent st (pre ++ post) e ctx now := by
  unfold processEvent
  induction pre generalizing st with
  | nil =>
    simp only [List.nil_append, processEventAux]
    rcases hb with hb | ⟨hb1, hb2⟩
    · rw [hb]
    · rw [hb1]
      have hca : createAlert st e rb ctx now = (none, st) := by
        unfold createAlert
        split
        · rfl
        · rw [hb2]
      rw [hca]
  | cons r0 pre ih =>
    simp only [List.cons_append, processEventAux]
    cases hev : r0.evaluate e ctx with
    | error m => exact ih st
    | ok b =>
      cases b with
      | false => exact ih st
      | true =>
        cases hca : createAlert st e r0 ctx now with
        | mk oa st1 =>
          cases oa with
          | none => exact ih st1
          | some a =>
            dsimp only
            simp only [List.append_eq]
            rw [ih st1]

/-- A rule whose `evaluate` always raises. -/
def throwingRule : AlertRule where
  rule_id := "RULE_BAD_001"
  name := "Throwing Rule"
  severity := "High"
  domain := "Test"
  confidence := 1 / 2
  sla_minutes := 10
  evaluate := fun _ _ => .error "boom"
  generate_description := fun _ _ => .error "boom"

/-- Witness for C6: the throwing rule between two healthy rules changes
nothing about the processing outcome. -/
theorem C6_throwing_rule_is_isolated_witness :
    (throwingRule.evaluate c1Event c1Ctx = .error "boom"
      ∨ (throwingRule.evaluate c1Event c1Ctx = .ok true
          ∧ throwingRule.generate_description c1Event c1Ctx = .error "boom"))
    ∧ processEvent ⟨[], 1⟩ ([securityEventRule] ++ throwingRule :: [anomalyDetectionRule])
          c1Event c1Ctx 0
        = processEvent ⟨[], 1⟩ ([securityEventRule] ++ [anomalyDetectionRule])
          c1Event c1Ctx 0 :=
  ⟨Or.inl rfl,
   C6_throwing_rule_is_isolated ⟨[], 1⟩ [securityEventRule] [anomalyDetectionRule]
     throwingRule c1Event c1Ctx 0 "boom" (Or.inl rfl)⟩

/-! ## SLA sweep theorems -/

theorem slaCond_iff (now : Int) (a : Alert) :
    (slaCandidate a && slaDeadlinePassed now a) = true ↔
      ((a.status = "open" ∨ a.status = "acknowledged") ∧ a.sla_breached = false
        ∧ ∃ t, a.sla_timer = some t ∧ a.created_at + t < now) := by
  unfold slaCandidate slaDeadlinePassed
  cases ht : a.sla_timer with
  | none => simp [ht]
  | some t =>
    simp [ht]
    tauto

/-- Claim C7: the SLA sweep sets `sla_breached` for exactly the alerts
with status in {open, acknowledged}, flag still false, a non-null timer
and `now` strictly past `created_at + sla_timer`; every other alert is
unchanged, and the flagged alerts are exactly the ones returned. -/
theorem C7_sweep_flags_exactly_breached (now : Int) (db : List Alert) :
    List.Forall₂ (fun a a' =>
        (((a.status = "open" ∨ a.status = "acknowledged")
            ∧ a.sla_breached = false
            ∧ ∃ t, a.sla_timer = some t ∧ a.created_at + t < now) →
          a' = { a with sla_breached := true })
        ∧ (¬ ((a.status = "open" ∨ a.status = "acknowledged")
            ∧ a.sla_breached = false
            ∧ ∃ t, a.sla_timer = some t ∧ a.created_at + t < now) →
          a' = a))
      db (checkSlaBreaches now db).1
    ∧ ∀ a', a' ∈ (checkSlaBreaches now db).2 ↔
        ∃ a ∈ db, ((a.status = "open" ∨ a.status = "acknowledged")
            ∧ a.sla_breached = false
            ∧ ∃ t, a.sla_timer = some t ∧ a.created_at + t < now)
          ∧ a' = { a with sla_breached := true } := by
  constructor
  · rw [checkSlaBreaches]
    rw [List.forall₂_map_right_iff, List.forall₂_same]
    intro a ha
    constructor
    · intro hc
      rw [if_pos ((slaCond_iff now a).mpr hc)]
    · intro hc
      rw [if_neg (fun h => hc ((slaCond_iff now a).mp h))]
  · intro a'
    rw [checkSlaBreaches]
    simp only [List.mem_map, List.mem_filter]
    constructor
    · rintro ⟨a, ⟨ha, hc⟩, rfl⟩
      exact ⟨a, ha, (slaCond_iff now a).mp hc, rfl⟩
    · rintro ⟨a, ha, hc, rfl⟩
      exact ⟨a, ⟨ha, (slaCond_iff now a).mpr hc⟩, rfl⟩

theorem checkSlaBreaches_ids (now : Int) (db : List Alert) :
    (checkSlaBreaches now db).1.map Alert.id = db.map Alert.id := by
  rw [checkSlaBreaches, List.map_map]
  apply List.map_congr_left
  intro a _
  simp only [Function.comp]
  split <;> rfl

theorem eq_of_mem_nodup_ids {l : List Alert}
    (hnd : (l.map Alert.id).Nodup) {x y : Alert}
    (hx : x ∈ l) (hy : y ∈ l) (hid : x.id = y.id) : x = y := by
  induction l with
  | nil => simp at hx
  | cons z rest ih =>
    rw [List.map_cons, List.nodup_cons] at hnd
    rcases List.mem_cons.mp hx with rfl | hx' <;>
      rcases List.mem_cons.mp hy with rfl | hy'
    · rfl
    · exact absurd (hid ▸ List.mem_map_of_mem Alert.id hy') hnd.1
    · exact absurd (hid ▸ List.mem_map_of_mem Alert.id hx') hnd.1
    · exact ih hnd.2 hx' hy'

/-- Claim C8: `sla_breached` is monotonic — no public alert operation
(PUT update, acknowledge, assign, resolve) and no sweep run ever turns
it from true back to false — and an alert flagged by one sweep is never
returned again by a later sweep when no operation intervened. -/
theorem C8_sla_breached_monotonic (a : Alert) (u : AlertUpdate)
    (now now1 now2 : Int) (uid : Nat) (users : List Nat) (notes : String)
    (db : List Alert) (hnd : (db.map Alert.id).Nodup)
    (hb : a.sla_breached = true) :
    (applyAlertUpdate u a).sla_breached = true
    ∧ (∀ a', acknowledgeAlert now uid a = .ok a' → a'.sla_breached = true)
    ∧ (∀ a', assignAlertOp users uid a = .ok a' → a'.sla_breached = true)
    ∧ (resolveAlert now uid notes a).sla_breached = true
    ∧ List.Forall₂ (fun b b' => b.sla_breached = true → b' = b)
        db (checkSlaBreaches now1 db).1
    ∧ ∀ i, i ∈ (checkSlaBreaches now1 db).2.map Alert.id →
        i ∉ (checkSlaBreaches now2 (checkSlaBreaches now1 db).1).2.map Alert.id := by
  refine ⟨?_, ?_, ?_, ?_, ?_, ?_⟩
  · rcases u with ⟨s, at1, ci, rn⟩
    cases s <;> cases at1 <;> cases ci <;> cases rn <;>
      simp [applyAlertUpdate, hb]
  · intro a' h
    unfold acknowledgeAlert at h
    split at h
    · injection h with h
      rw [← h]
      exact hb
    · cases h
  · intro a' h
    unfold assignAlertOp at h
    split at h
    · injection h with h
      rw [← h]
      exact hb
    · cases h
  · exact hb
  · rw [checkSlaBreaches]
    rw [List.forall₂_map_right_iff, List.forall₂_same]
    intro b _ hbtrue
    have hc : (slaCandidate b && slaDeadlinePassed now1 b) = false := by
      simp [slaCandidate, hbtrue]
    rw [if_neg (by simp [hc])]
  · intro i h1 h2
    simp only [List.mem_map] at h1 h2
    obtain ⟨b1, hb1, hid1⟩ := h1
    obtain ⟨b2, hb2, hid2⟩ := h2
    rw [checkSlaBreaches] at hb1
    simp only [List.mem_map, List.mem_filter] at hb1
    obtain ⟨c1, ⟨hc1mem, hc1cond⟩, rfl⟩ := hb1
    rw [checkSlaBreaches] at hb2
    simp only [List.mem_map, List.mem_filter] at hb2
    obtain ⟨c2, ⟨hc2mem, hc2cond⟩, rfl⟩ := hb2
    -- the flagged copy of c1 is a member of the post-sweep table
    have hmem1 : ({ c1 with sla_breached := true } : Alert)
        ∈ (checkSlaBreaches now1 db).1 := by
      rw [checkSlaBreaches]
      have hstep := List.mem_map_of_mem
        (fun a => if slaCandidate a && slaDeadlinePassed now1 a then
            { a with sla_breached := true } else a) hc1mem
      dsimp only at hstep
      rw [if_pos hc1cond] at hstep
      exact hstep
    have hndPost : ((checkSlaBreaches now1 db).1.map Alert.id).Nodup := by
      rw [checkSlaBreaches_ids]
      exact hnd
    have hidEq : ({ c1 with sla_breached := true } : Alert).id = c2.id :=
      hid1.trans hid2.symm
    have hEq := eq_of_mem_nodup_ids hndPost hmem1 hc2mem hidEq
    -- but c2 passed the candidate filter, so its flag is still false
    have hfalse : c2.sla_breached = false := by
      unfold slaCandidate at hc2cond
      simp only [Bool.and_eq_true, beq_iff_eq] at hc2cond
      exact hc2cond.1.1.2
    rw [← hEq] at hfalse
    simp at hfalse

/-- A breached, acknowledged alert used as concrete input. -/
def c8Alert : Alert :=
  { id := 2, severity := "High", confidence := 1 / 2, sla_timer := some 30,
    sla_breached := true, status := "acknowledged", created_at := 0 }

/-- A small alert table: one pending alert and one already breached. -/
def c8Db : List Alert :=
  [{ id := 1, severity := "Critical", confidence := 95 / 100,
     sla_timer := some 15, created_at := 0 },
   c8Alert]

/-- Witness for C8 on the two-alert table with sweeps at 20 and 30
minutes. -/
theorem C8_sla_breached_monotonic_witness :
    (c8Db.map Alert.id).Nodup ∧ c8Alert.sla_breached = true
    ∧ ((applyAlertUpdate { status := some "open" } c8Alert).sla_breached = true
      ∧ (∀ a', acknowledgeAlert 5 9 c8Alert = .ok a' → a'.sla_breached = true)
      ∧ (∀ a', assignAlertOp [9] 9 c8Alert = .ok a' → a'.sla_breached = true)
      ∧ (resolveAlert 5 9 "done" c8Alert).sla_breached = true
      ∧ List.Forall₂ (fun b b' => b.sla_breached = true → b' = b)
          c8Db (checkSlaBreaches 20 c8Db).1
      ∧ ∀ i, i ∈ (checkSlaBreaches 20 c8Db).2.map Alert.id →
          i ∉ (checkSlaBreaches 30 (checkSlaBreaches 20 c8Db).1).2.map Alert.id) :=
  ⟨by decide, rfl,
   C8_sla_breached_monotonic c8Alert { status := some "open" } 5 20 30 9 [9]
     "done" c8Db (by decide) rfl⟩

/-! ## Alert lifecycle theorems (claim C5) -/

/-- A closed alert used as concrete input. -/
def c5ClosedAlert : Alert :=
  { id := 3, severity := "High", confidence := 1 / 2, sla_timer := some 30,
    status := "closed", created_at := 0 }

/-- Claim C5 counterexample: the lifecycle is not forward-only — the
assign operation moves a closed alert back to `assigned`, and the PUT
update moves a closed alert back to `open`, so an alert does leave the
closed status. -/
theorem C5_counterexample_closed_leaves_closed :
    c5ClosedAlert.status = "closed"
    ∧ (assignAlertOp [5] 5 c5ClosedAlert).map Alert.status = .ok "assigned"
    ∧ (applyAlertUpdate { status := some "open" } c5ClosedAlert).status = "open" :=
  ⟨rfl, rfl, rfl⟩

/-- Claim C5 amended: only `acknowledge_alert` guards the lifecycle — it
transitions exactly open to acknowledged and rejects every other start
state; `resolve_alert` closes from any state, `assign_alert` sets
`assigned` from any state (including closed), and an update with no
status field leaves the status unchanged. -/
theorem C5_amended_lifecycle (a : Alert) (now : Int) (uid : Nat)
    (users : List Nat) (notes : String) (u : AlertUpdate)
    (hu : u.status = none) :
    (a.status ≠ "open" →
      acknowledgeAlert now uid a = .error "Alert is not in open status")
    ∧ (∀ a', acknowledgeAlert now uid a = .ok a' →
        a.status = "open" ∧ a'.status = "acknowledged")
    ∧ (resolveAlert now uid notes a).status = "closed"
    ∧ (∀ a', assignAlertOp users uid a = .ok a' → a'.status = "assigned")
    ∧ (applyAlertUpdate u a).status = a.status := by
  refine ⟨?_, ?_, rfl, ?_, ?_⟩
  · intro hne
    unfold acknowledgeAlert
    rw [if_neg (by simpa using hne)]
  · intro a' h
    unfold acknowledgeAlert at h
    split at h
    next hopen =>
      injection h with h
      exact ⟨by simpa using hopen, by rw [← h]⟩
    next => cases h
  · intro a' h
    unfold assignAlertOp at h
    split at h
    · injection h with h
      rw [← h]
    · cases h
  · rcases u with ⟨s, at1, ci, rn⟩
    cases s with
    | none =>
      cases at1 <;> cases ci <;> cases rn <;> simp [applyAlertUpdate]
    | some s0 => cases hu

/-- An alert in the investigating status. -/
def c5Invest : Alert := { c5ClosedAlert with status := "investigating" }

/-- A status-free update payload. -/
def c5Upd : AlertUpdate := { assigned_to := some 4 }

/-- Witness for the amended C5 on an investigating alert. -/
theorem C5_amended_lifecycle_witness :
    c5Upd.status = none
    ∧ ((c5Invest.status ≠ "open" →
        acknowledgeAlert 5 9 c5Invest = .error "Alert is not in open status")
      ∧ (∀ a', acknowledgeAlert 5 9 c5Invest = .ok a' →
          c5Invest.status = "open" ∧ a'.status = "acknowledged")
      ∧ (resolveAlert 5 9 "done" c5Invest).status = "closed"
      ∧ (∀ a', assignAlertOp [9] 9 c5Invest = .ok a' → a'.status = "assigned")
      ∧ (applyAlertUpdate c5Upd c5Invest).status = c5Invest.status) :=
  ⟨rfl, C5_amended_lifecycle c5Invest 5 9 [9] "done" c5Upd rfl⟩

/-! ## Quiet hours (claim C4) -/

/-- A user with the overnight quiet window 22:00 to 06:00, email enabled
for every severity down to Medium, push enabled. -/
def c4prefs : NotificationPreference :=
  { email_enabled := true, quiet_hours_enabled := true,
    quiet_hours_start := some "22:00", quiet_hours_end := some "06:00",
    email_medium_alerts := true }

/-- The same user with a same-day quiet window 01:00 to 06:00. -/
def c4prefsDay : NotificationPreference :=
  { email_enabled := true, quiet_hours_enabled := true,
    quiet_hours_start := some "01:00", quiet_hours_end := some "06:00",
    email_medium_alerts := true }

/-- Claim C4 (code bug): the quiet-hours string range
`start <= now <= end` is unsatisfiable for an overnight window, because
"22:00" <= "02:00" is false as Python string comparison — so for the
user of the spec scenario a Medium alert at 02:00 DOES produce an email,
against the claim.  The restriction itself works for a window that does
not cross midnight (the same Medium alert at 02:00 is suppressed for a
01:00-to-06:00 window while Critical still passes), and the push gate
ignores quiet hours entirely. -/
theorem C4_overnight_quiet_hours_ineffective :
    shouldSendEmail (some c4prefs) "alert" (some "Medium") "02:00" = true
    ∧ quietRangeHit (some "22:00") (some "06:00") "02:00" = false
    ∧ quietRangeHit (some "22:00") (some "06:00") "23:00" = false
    ∧ shouldSendEmail (some c4prefsDay) "alert" (some "Medium") "02:00" = false
    ∧ shouldSendEmail (some c4prefsDay) "alert" (some "Critical") "02:00" = true
    ∧ shouldSendEmail (some c4prefs) "alert" (some "Critical") "02:00" = true
    ∧ shouldSendWebsocket (some c4prefs) = true := by
  decide

/-! ## Event ingestion theorems (claim C3) -/

/-- The movement the concrete events reference. -/
def c3Movement : Movement := { id := 7, status := "active", laycan_end := 1000 }

/-- A non-urgent event payload that two rules would match. -/
def c3NonUrgent : EventCreate :=
  { movement_id := 7, event_type := "operational", severity := "info",
    location := some "Red Sea", description := some "suspicious loitering" }

/-- An urgent (security) event payload. -/
def c3Urgent : EventCreate :=
  { movement_id := 7, event_type := "security", severity := "info",
    description := some "unauthorized access" }

/-- The persisted event for the non-urgent payload. -/
def c3Event : Event :=
  { id := 1, movement_id := 7, timestamp := 0, location := some "Red Sea",
    event_type := "operational", severity := "info",
    description := some "suspicious loitering" }

/-- Claim C3 (code bug): an urgent event is evaluated synchronously
before the handler returns (the security payload yields its two matching
alerts), but a non-urgent event is never evaluated at all — the handler
returns with the alert store untouched and zero alerts even though two
rules match the event, because nothing ever schedules the background
task `process_event_alerts`. -/
theorem C3_nonurgent_events_never_evaluated :
    (createEvent [c3Movement] [] ⟨[], 1⟩ c3NonUrgent 1 0).map
        (fun r => (r.event, r.engine, r.createdAlerts))
      = .ok (c3Event, ⟨[], 1⟩, [])
    ∧ highRiskZoneRule.evaluate c3Event { timestamp := 0 } = .ok true
    ∧ anomalyDetectionRule.evaluate c3Event { timestamp := 0 } = .ok true
    ∧ (createEvent [c3Movement] [] ⟨[], 1⟩ c3Urgent 1 0).map
        (fun r => r.createdAlerts.length) = .ok 2 := by
  refine ⟨by decide, by decide, by decide, by decide⟩

/-! ## SLA escalation wiring (claim C2) -/

/-- An alert with a 15-minute SLA timer created at time 0. -/
def c2Alert : Alert :=
  { id := 4, severity := "Critical", confidence := 95 / 100,
    sla_timer := some 15, created_at := 0 }

/-- Two active supervisors. -/
def c2Users : List User :=
  [{ id := 1, role := "supervisor", email := "sup@sira.example", is_active := true },
   { id := 2, role := "admin", email := "adm@sira.example", is_active := true }]

/-- Both supervisors live in the supervisors room with one connection
each. -/
def c2Conn : ConnState :=
  { active := [(1, [101]), (2, [102])], rooms := [("supervisors", [1, 2])] }

/-- Claim C2 (code bug): the sweep at creation + 20 minutes does flip
`sla_breached` on the 15-minute alert and return it, but the sweep
pipeline as wired in the repository emits zero notifications (nothing
ever calls `notify_sla_breach`); and the notifier itself, were it
called, would deliver the push message twice to every connection (it
re-broadcasts the room once per supervisor) and would log only
email-channel rows — never exactly one notification on both channels. -/
theorem C2_sweep_emits_no_escalation :
    (checkSlaBreaches 20 [c2Alert]).1.map Alert.sla_breached = [true]
    ∧ (checkSlaBreaches 20 [c2Alert]).2.length = 1
    ∧ (slaSweepPipeline 20 [c2Alert]).2.1 = []
    ∧ (slaSweepPipeline 20 [c2Alert]).2.2 = []
    ∧ (notifySlaBreach c2Users (fun _ => false) c2Conn).pushDeliveries.count 101 = 2
    ∧ (notifySlaBreach c2Users (fun _ => false) c2Conn).pushDeliveries.count 102 = 2
    ∧ (notifySlaBreach c2Users (fun _ => false) c2Conn).logs.map LogEntry.channel
        = ["email", "email"] := by
  decide

/-! ## Notification log theorems (claim C10) -/

/-- The websocket-channel log row `notify_alert` writes for one user. -/
def wsLogEntry (severity : String) (u : User) : LogEntry :=
  { user_id := u.id, notification_type := "alert", channel := "websocket",
    priority := priorityFor severity, is_delivered := true }

/-- The email-channel log row `notify_alert` writes for one user. -/
def emailLogEntry (severity : String) (emailOk : String → Bool) (u : User) :
    LogEntry :=
  { user_id := u.id, notification_type := "alert", channel := "email",
    priority := priorityFor severity, is_delivered := emailOk u.email,
    delivery_error := if emailOk u.email then none else some "Email delivery failed" }

/-- The log rows the recipient loop appends, independent of the
connection registry. -/
def notifyAlertLogs (prefsDb : List (Nat × NotificationPreference))
    (severity nowHM : String) (emailOk : String → Bool) :
    List User → List LogEntry
  | [] => []
  | u :: rest =>
    (if shouldSendWebsocket (prefsDb.lookup u.id) then
        [wsLogEntry severity u] else [])
      ++ (if shouldSendEmail (prefsDb.lookup u.id) "alert" (some severity) nowHM then
          [emailLogEntry severity emailOk u] else [])
      ++ notifyAlertLogs prefsDb severity nowHM emailOk rest

theorem notifyAlertAux_logs_eq (prefsDb : List (Nat × NotificationPreference))
    (closed : ConnId → Bool) (severity nowHM : String) (emailOk : String → Bool) :
    ∀ (users : List User) (st : ConnState),
      (notifyAlertAux prefsDb closed severity nowHM emailOk users st).logs
        = notifyAlertLogs prefsDb severity nowHM emailOk users := by
  intro users
  induction users with
  | nil => intro st; rfl
  | cons u rest ih =>
    intro st
    cases hws : shouldSendWebsocket (prefsDb.lookup u.id) <;>
      cases he : shouldSendEmail (prefsDb.lookup u.id) "alert" (some severity) nowHM <;>
      simp [notifyAlertAux, notifyAlertLogs, hws, he, ih, wsLogEntry, emailLogEntry]

theorem notifyAlertLogs_user_mem (prefsDb : List (Nat × NotificationPreference))
    (severity nowHM : String) (emailOk : String → Bool) :
    ∀ (users : List User) (l : LogEntry),
      l ∈ notifyAlertLogs prefsDb severity nowHM emailOk users →
      l.user_id ∈ users.map User.id := by
  intro users
  induction users with
  | nil => intro l h; simp [notifyAlertLogs] at h
  | cons u rest ih =>
    intro l h
    simp only [notifyAlertLogs, List.mem_append] at h
    rcases h with (h | h) | h
    · rw [List.map_cons, List.mem_cons]
      left
      split at h <;> simp at h <;> simp [h, wsLogEntry]
    · rw [List.map_cons, List.mem_cons]
      left
      split at h <;> simp at h <;> simp [h, emailLogEntry]
    · exact List.mem_cons_of_mem _ (ih l h)

theorem notifyAlertLogs_ws_delivered (prefsDb : List (Nat × NotificationPreference))
    (severity nowHM : String) (emailOk : String → Bool) :
    ∀ (users : List User) (l : LogEntry),
      l ∈ notifyAlertLogs prefsDb severity nowHM emailOk users →
      l.channel = "websocket" →
      l.is_delivered = true ∧ l.delivery_error = none := by
  intro users
  induction users with
  | nil => intro l h; simp [notifyAlertLogs] at h
  | cons u rest ih =>
    intro l h hch
    simp only [notifyAlertLogs, List.mem_append] at h
    rcases h with (h | h) | h
    · split at h <;> simp at h
      subst h
      exact ⟨rfl, rfl⟩
    · split at h <;> simp at h
      subst h
      simp [emailLogEntry] at hch
    · exact ih l h hch

theorem notifyAlertLogs_ws_count (prefsDb : List (Nat × NotificationPreference))
    (severity nowHM : String) (emailOk : String → Bool) :
    ∀ (users : List User),
      (users.map User.id).Nodup →
      ∀ u ∈ users, shouldSendWebsocket (prefsDb.lookup u.id) = true →
      ((notifyAlertLogs prefsDb severity nowHM emailOk users).filter
          (fun l => l.user_id == u.id && l.channel == "websocket")).length = 1 := by
  intro users
  induction users with
  | nil => intro _ u hu; simp at hu
  | cons u0 rest ih =>
    intro hnd u hu hws
    rw [List.map_cons, List.nodup_cons] at hnd
    have hrest_zero : ∀ (uid : Nat),
        uid ∉ rest.map User.id →
        ((notifyAlertLogs prefsDb severity nowHM emailOk rest).filter
            (fun l => l.user_id == uid && l.channel == "websocket")) = [] := by
      intro uid hnotin
      rw [List.filter_eq_nil_iff]
      intro l hl
      have hmem := notifyAlertLogs_user_mem prefsDb severity nowHM emailOk rest l hl
      simp only [Bool.and_eq_true, beq_iff_eq, not_and]
      intro hEq
      exact absurd (hEq ▸ hmem) hnotin
    rcases List.mem_cons.mp hu with rfl | humem
    · simp only [notifyAlertLogs, hws, if_true, List.filter_append,
        List.length_append]
      rw [hrest_zero u.id hnd.1]
      cases he : shouldSendEmail (prefsDb.lookup u.id) "alert" (some severity) nowHM <;>
        simp [wsLogEntry, emailLogEntry]
    · have hne : u.id ≠ u0.id := by
        intro hEq
        exact hnd.1 (hEq ▸ List.mem_map_of_mem User.id humem)
      simp only [notifyAlertLogs, List.filter_append, List.length_append]
      rw [ih hnd.2 u humem hws]
      cases hws0 : shouldSendWebsocket (prefsDb.lookup u0.id) <;>
        cases he0 : shouldSendEmail (prefsDb.lookup u0.id) "alert" (some severity) nowHM <;>
        simp [wsLogEntry, emailLogEntry, hne, Ne.symm hne]

/-- Claim C10: for every recipient of `notify_alert` whose preferences
enable websocket delivery (or who has no preference row), exactly one
notification-log row with channel `websocket` and `is_delivered = true`
is written; every websocket-channel row is marked delivered with no
`delivery_error`; and the rows written do not depend on the connection
registry at all — a recipient with zero live connections is logged as
delivered just the same. -/
theorem C10_websocket_log_rows_unconditional (allUsers : List User)
    (target : Option (List Nat)) (prefsDb : List (Nat × NotificationPreference))
    (closed closed' : ConnId → Bool) (severity nowHM : String)
    (emailOk : String → Bool) (st st' : ConnState)
    (hnd : ((alertAudience allUsers target).map User.id).Nodup) :
    (∀ u ∈ alertAudience allUsers target,
        shouldSendWebsocket (prefsDb.lookup u.id) = true →
        ((notifyAlert allUsers target prefsDb closed severity nowHM emailOk st).logs.filter
            (fun l => l.user_id == u.id && l.channel == "websocket")).length = 1)
    ∧ (∀ l ∈ (notifyAlert allUsers target prefsDb closed severity nowHM emailOk st).logs,
        l.channel = "websocket" → l.is_delivered = true ∧ l.delivery_error = none)
    ∧ (notifyAlert allUsers target prefsDb closed severity nowHM emailOk st).logs
        = (notifyAlert allUsers target prefsDb closed' severity nowHM emailOk st').logs := by
  refine ⟨?_, ?_, ?_⟩
  · intro u hu hws
    rw [notifyAlert, notifyAlertAux_logs_eq]
    exact notifyAlertLogs_ws_count prefsDb severity nowHM emailOk
      (alertAudience allUsers target) hnd u hu hws
  · intro l hl hch
    rw [notifyAlert, notifyAlertAux_logs_eq] at hl
    exact notifyAlertLogs_ws_delivered prefsDb severity nowHM emailOk
      (alertAudience allUsers target) l hl hch
  · rw [notifyAlert, notifyAlert, notifyAlertAux_logs_eq, notifyAlertAux_logs_eq]

/-- A supervisor with no preference row and no live connection. -/
def c10User : User := { id := 9, role := "supervisor", email := "u9@sira.example", is_active := true }

/-- Witness for C10: one supervisor, empty preference table, empty
connection registry. -/
theorem C10_websocket_log_rows_unconditional_witness :
    (((alertAudience [c10User] none).map User.id).Nodup)
    ∧ ((∀ u ∈ alertAudience [c10User] none,
        shouldSendWebsocket (List.lookup u.id ([] : List (Nat × NotificationPreference))) = true →
        ((notifyAlert [c10User] none [] (fun _ => false) "Medium" "12:00"
            (fun _ => true) ⟨[], []⟩).logs.filter
            (fun l => l.user_id == u.id && l.channel == "websocket")).length = 1)
      ∧ (∀ l ∈ (notifyAlert [c10User] none [] (fun _ => false) "Medium" "12:00"
            (fun _ => true) ⟨[], []⟩).logs,
          l.channel = "websocket" → l.is_delivered = true ∧ l.delivery_error = none)
      ∧ (notifyAlert [c10User] none [] (fun _ => false) "Medium" "12:00"
            (fun _ => true) ⟨[], []⟩).logs
          = (notifyAlert [c10User] none [] (fun _ => true) "Medium" "12:00"
            (fun _ => true) ⟨[(9, [55])], []⟩).logs) :=
  ⟨by decide,
   C10_websocket_log_rows_unconditional [c10User] none [] (fun _ => false)
     (fun _ => true) "Medium" "12:00" (fun _ => true) ⟨[], []⟩ ⟨[(9, [55])], []⟩
     (by decide)⟩

/-! ## Connection registry theorems (claim C9) -/

/-- Wellformedness of the registry: the user map has no duplicate keys,
each connection set is duplicate-free, and no socket is registered under
two different users. -/
def WFConn (st : ConnState) : Prop :=
  (st.active.map Prod.fst).Nodup
  ∧ (∀ p ∈ st.active, p.2.Nodup)
  ∧ (∀ p ∈ st.active, ∀ q ∈ st.active, p.1 ≠ q.1 → ∀ c ∈ p.2, c ∉ q.2)

instance (st : ConnState) : Decidable (WFConn st) := by
  unfold WFConn
  infer_instance

theorem lookup_mem {l : List (UserId × List ConnId)} {u : UserId}
    {cs : List ConnId} (h : l.lookup u = some cs) : (u, cs) ∈ l := by
  induction l with
  | nil => simp [List.lookup] at h
  | cons p rest ih =>
    rw [List.lookup] at h
    cases hu : (u == p.1) with
    | true =>
      rw [hu] at h
      injection h with h
      have hu' : u = p.1 := by simpa using hu
      cases p with
      | mk a b =>
        simp only at hu' h
        subst hu'
        subst h
        exact List.mem_cons_self _ _
    | false =>
      rw [hu] at h
      exact List.mem_cons_of_mem _ (ih h)

theorem updateConns_keys (l : List (UserId × List ConnId)) (u : UserId)
    (new : List ConnId) :
    (updateConns l u new).map Prod.fst = l.map Prod.fst := by
  induction l with
  | nil => rfl
  | cons p rest ih =>
    rw [updateConns]
    split
    · rfl
    · simp [ih]

theorem updateConns_mem {l : List (UserId × List ConnId)} {u : UserId}
    {new : List ConnId} {p : UserId × List ConnId}
    (h : p ∈ updateConns l u new) : p ∈ l ∨ p = (u, new) := by
  induction l with
  | nil => simp [updateConns] at h
  | cons q rest ih =>
    rw [updateConns] at h
    split at h
    next heq =>
      rcases List.mem_cons.mp h with rfl | hmem
      · right
        have : q.1 = u := by simpa using heq
        rw [this]
      · exact Or.inl (List.mem_cons_of_mem _ hmem)
    next =>
      rcases List.mem_cons.mp h with rfl | hmem
      · exact Or.inl (List.mem_cons_self _ _)
      · rcases ih hmem with hmem | hmem
        · exact Or.inl (List.mem_cons_of_mem _ hmem)
        · exact Or.inr hmem

theorem lookup_updateConns_self {l : List (UserId × List ConnId)} {u : UserId}
    (new : List ConnId) {cs : List ConnId} (h : l.lookup u = some cs) :
    (updateConns l u new).lookup u = some new := by
  induction l with
  | nil => simp [List.lookup] at h
  | cons p rest ih =>
    rw [List.lookup] at h
    rw [updateConns]
    cases hu : (u == p.1) with
    | true =>
      have hq : (p.1 == u) = true := by
        simpa using (by simpa using hu : u = p.1).symm
      rw [if_pos hq]
      rw [List.lookup]
      simp [hu]
    | false =>
      rw [hu] at h
      have hq : (p.1 == u) = false := by
        simp only [beq_eq_false_iff_ne] at hu ⊢
        exact fun hEq => hu hEq.symm
      rw [if_neg (by simp [hq])]
      rw [List.lookup, hu]
      exact ih h

theorem lookup_updateConns_ne {l : List (UserId × List ConnId)} {u v : UserId}
    (new : List ConnId) (h : v ≠ u) :
    (updateConns l u new).lookup v = l.lookup v := by
  induction l with
  | nil => rfl
  | cons p rest ih =>
    rw [updateConns]
    split
    next heq =>
      have hp : p.1 = u := by simpa using heq
      rw [List.lookup, List.lookup]
      have hv : (v == p.1) = false := by
        simp only [beq_eq_false_iff_ne]
        rw [hp]
        exact h
      simp [hv]
    next =>
      rw [List.lookup, List.lookup]
      cases hv : (v == p.1) with
      | true => rfl
      | false => exact ih

theorem removeUser_sublist (l : List (UserId × List ConnId)) (u : UserId) :
    (removeUser l u).Sublist l := by
  induction l with
  | nil => exact List.Sublist.refl _
  | cons p rest ih =>
    rw [removeUser]
    split
    · exact List.sublist_cons_of_sublist _ (List.Sublist.refl _)
    · exact List.Sublist.cons₂ _ ih

theorem lookup_removeUser_self {l : List (UserId × List ConnId)} {u : UserId}
    (hnd : (l.map Prod.fst).Nodup) : (removeUser l u).lookup u = none := by
  induction l with
  | nil => rfl
  | cons p rest ih =>
    rw [List.map_cons, List.nodup_cons] at hnd
    rw [removeUser]
    split
    next heq =>
      have hp : p.1 = u := by simpa using heq
      cases hl : rest.lookup u with
      | none => rfl
      | some cs =>
        exact absurd (hp ▸ List.mem_map_of_mem Prod.fst (lookup_mem hl)) hnd.1
    next heq =>
      rw [List.lookup]
      have hv : (u == p.1) = false := by
        simp only [beq_eq_false_iff_ne]
        intro hEq
        exact (by simpa using heq : ¬p.1 = u) hEq.symm
      rw [hv]
      exact ih hnd.2

theorem lookup_removeUser_ne {l : List (UserId × List ConnId)} {u v : UserId}
    (h : v ≠ u) : (removeUser l u).lookup v = l.lookup v := by
  induction l with
  | nil => rfl
  | cons p rest ih =>
    rw [removeUser]
    split
    next heq =>
      have hp : p.1 = u := by simpa using heq
      rw [List.lookup]
      have hv : (v == p.1) = false := by
        simp only [beq_eq_false_iff_ne]
        rw [hp]
        exact h
      rw [hv]
    next =>
      rw [List.lookup, List.lookup]
      cases hv : (v == p.1) with
      | true => rfl
      | false => exact ih

theorem filter_closed_empty {conns : List ConnId} {closed : ConnId → Bool}
    (h : conns.filter closed = []) :
    conns.filter (fun c => !closed c) = conns := by
  rw [List.filter_eq_self]
  intro c hc
  rw [List.filter_eq_nil_iff] at h
  simpa using h c hc

theorem sendPersonal_delivered (closed : ConnId → Bool) (u : UserId)
    (st : ConnState) :
    (sendPersonalMessage closed u st).2
      = (connsOf st u).filter (fun c => !closed c) := by
  rw [sendPersonalMessage, connsOf]
  cases hl : st.active.lookup u with
  | none => rfl
  | some conns =>
    dsimp only [Option.getD]
    split <;> rfl

theorem sendPersonal_rooms (closed : ConnId → Bool) (u : UserId)
    (st : ConnState) :
    (sendPersonalMessage closed u st).1.rooms = st.rooms := by
  rw [sendPersonalMessage]
  cases hl : st.active.lookup u with
  | none => rfl
  | some conns =>
    dsimp only
    split
    · rfl
    · split <;> rfl

theorem sendPersonal_connsOf_self (closed : ConnId → Bool) (u : UserId)
    (st : ConnState) (hnd : (st.active.map Prod.fst).Nodup) :
    connsOf (sendPersonalMessage closed u st).1 u
      = (connsOf st u).filter (fun c => !closed c) := by
  rw [sendPersonalMessage]
  cases hl : st.active.lookup u with
  | none =>
    dsimp only
    simp only [connsOf, hl]
    rfl
  | some conns =>
    dsimp only
    split
    next hclosed =>
      simp only [connsOf, hl]
      exact (filter_closed_empty (List.isEmpty_iff.mp hclosed)).symm
    next =>
      split
      next hlive =>
        simp only [connsOf, hl]
        rw [lookup_removeUser_self hnd]
        simpa using (List.isEmpty_iff.mp hlive).symm
      next =>
        simp only [connsOf, hl]
        rw [lookup_updateConns_self _ hl]
        rfl

theorem sendPersonal_connsOf_ne (closed : ConnId → Bool) (u v : UserId)
    (st : ConnState) (h : v ≠ u) :
    connsOf (sendPersonalMessage closed u st).1 v = connsOf st v := by
  rw [sendPersonalMessage]
  cases hl : st.active.lookup u with
  | none => rfl
  | some conns =>
    dsimp only
    split
    · rfl
    · split
      · simp only [connsOf]
        rw [lookup_removeUser_ne h]
      · simp only [connsOf]
        rw [lookup_updateConns_ne _ h]

theorem sendPersonal_WF (closed : ConnId → Bool) (u : UserId)
    (st : ConnState) (hwf : WFConn st) :
    WFConn (sendPersonalMessage closed u st).1 := by
  obtain ⟨hkeys, hcnd, hdisj⟩ := hwf
  rw [sendPersonalMessage]
  cases hl : st.active.lookup u with
  | none => exact ⟨hkeys, hcnd, hdisj⟩
  | some conns =>
    dsimp only
    split
    · exact ⟨hkeys, hcnd, hdisj⟩
    · split
      · -- the drained user entry is removed
        refine ⟨?_, ?_, ?_⟩
        · exact hkeys.sublist (List.Sublist.map Prod.fst (removeUser_sublist st.active u))
        · intro p hp
          exact hcnd p ((removeUser_sublist st.active u).mem hp)
        · intro p hp q hq hne c hc
          exact hdisj p ((removeUser_sublist st.active u).mem hp)
            q ((removeUser_sublist st.active u).mem hq) hne c hc
      · -- the user entry is replaced by the filtered set
        have hmem0 : (u, conns) ∈ st.active := lookup_mem hl
        refine ⟨?_, ?_, ?_⟩
        · rw [updateConns_keys]
          exact hkeys
        · intro p hp
          rcases updateConns_mem hp with hp | rfl
          · exact hcnd p hp
          · exact (hcnd _ hmem0).filter _
        · intro p hp q hq hne c hc
          rcases updateConns_mem hp with hp | rfl <;>
            rcases updateConns_mem hq with hq | hq
          · exact hdisj p hp q hq hne c hc
          · subst hq
            dsimp only at hne ⊢
            intro hcq
            exact hdisj p hp (u, conns) hmem0 hne c hc
              (List.mem_of_mem_filter hcq)
          · dsimp only at hne hc
            exact hdisj (u, conns) hmem0 q hq hne c
              (List.mem_of_mem_filter hc)
          · subst hq
            exact absurd rfl hne

theorem connsOf_nodup {st : ConnState} (hwf : WFConn st) (u : UserId) :
    (connsOf st u).Nodup := by
  rw [connsOf]
  cases hl : st.active.lookup u with
  | none => simp
  | some conns => exact hwf.2.1 _ (lookup_mem hl)

theorem connsOf_disjoint {st : ConnState} (hwf : WFConn st) {u v : UserId}
    (hne : u ≠ v) {c : ConnId} (hc : c ∈ connsOf st u) : c ∉ connsOf st v := by
  rw [connsOf] at hc ⊢
  cases hl : st.active.lookup u with
  | none => rw [hl] at hc; simp at hc
  | some cs =>
    rw [hl] at hc
    cases hl2 : st.active.lookup v with
    | none => simp
    | some cs2 =>
      exact hwf.2.2 (u, cs) (lookup_mem hl) (v, cs2) (lookup_mem hl2) hne c hc

theorem broadcastRoomAux_rooms (closed : ConnId → Bool) :
    ∀ (uids : List UserId) (st : ConnState),
      (broadcastRoomAux closed uids st).1.rooms = st.rooms := by
  intro uids
  induction uids with
  | nil => intro st; rfl
  | cons u rest ih =>
    intro st
    rw [broadcastRoomAux]
    dsimp only
    rw [ih, sendPersonal_rooms]

theorem broadcastRoomAux_WF (closed : ConnId → Bool) :
    ∀ (uids : List UserId) (st : ConnState), WFConn st →
      WFConn (broadcastRoomAux closed uids st).1 := by
  intro uids
  induction uids with
  | nil => intro st h; exact h
  | cons u rest ih =>
    intro st h
    rw [broadcastRoomAux]
    exact ih _ (sendPersonal_WF closed u st h)

theorem broadcastRoomAux_connsOf_notmem (closed : ConnId → Bool) :
    ∀ (uids : List UserId) (st : ConnState) (v : UserId), v ∉ uids →
      connsOf (broadcastRoomAux closed uids st).1 v = connsOf st v := by
  intro uids
  induction uids with
  | nil => intro st v _; rfl
  | cons u rest ih =>
    intro st v hv
    rw [broadcastRoomAux]
    dsimp only
    rw [ih _ v (fun h => hv (List.mem_cons_of_mem _ h)),
      sendPersonal_connsOf_ne closed u v st
        (fun h => hv (h ▸ List.mem_cons_self _ _))]

theorem broadcastRoomAux_connsOf_mem (closed : ConnId → Bool) :
    ∀ (uids : List UserId) (st : ConnState), WFConn st → uids.Nodup →
      ∀ u ∈ uids,
        connsOf (broadcastRoomAux closed uids st).1 u
          = (connsOf st u).filter (fun c => !closed c) := by
  intro uids
  induction uids with
  | nil => intro st _ _ u hu; simp at hu
  | cons u0 rest ih =>
    intro st hwf hnd u hu
    rw [List.nodup_cons] at hnd
    rw [broadcastRoomAux]
    dsimp only
    rcases List.mem_cons.mp hu with rfl | humem
    · rw [broadcastRoomAux_connsOf_notmem closed rest _ u hnd.1]
      exact sendPersonal_connsOf_self closed u st hwf.1
    · have hne : u ≠ u0 := fun hEq =>
        hnd.1 (hEq ▸ humem)
      rw [ih _ (sendPersonal_WF closed u0 st hwf) hnd.2 u humem,
        sendPersonal_connsOf_ne closed u0 u st hne]

theorem broadcastRoomAux_delivered_iff (closed : ConnId → Bool) :
    ∀ (uids : List UserId) (st : ConnState), WFConn st → uids.Nodup →
      ∀ c, c ∈ (broadcastRoomAux closed uids st).2 ↔
        ∃ u ∈ uids, c ∈ connsOf st u ∧ closed c = false := by
  intro uids
  induction uids with
  | nil => intro st _ _ c; simp [broadcastRoomAux]
  | cons u0 rest ih =>
    intro st hwf hnd c
    rw [List.nodup_cons] at hnd
    rw [broadcastRoomAux]
    dsimp only
    rw [List.mem_append, sendPersonal_delivered,
      ih _ (sendPersonal_WF closed u0 st hwf) hnd.2 c]
    constructor
    · rintro (h | ⟨u, hu, hc, hcl⟩)
      · rw [List.mem_filter] at h
        exact ⟨u0, List.mem_cons_self _ _, h.1, by simpa using h.2⟩
      · have hne : u ≠ u0 := fun hEq => hnd.1 (hEq ▸ hu)
        rw [sendPersonal_connsOf_ne closed u0 u st hne] at hc
        exact ⟨u, List.mem_cons_of_mem _ hu, hc, hcl⟩
    · rintro ⟨u, hu, hc, hcl⟩
      rcases List.mem_cons.mp hu with rfl | humem
      · left
        rw [List.mem_filter]
        exact ⟨hc, by simpa using hcl⟩
      · right
        have hne : u ≠ u0 := fun hEq => hnd.1 (hEq ▸ humem)
        exact ⟨u, humem, by
          rw [sendPersonal_connsOf_ne closed u0 u st hne]
          exact hc, hcl⟩

theorem broadcastRoomAux_delivered_nodup (closed : ConnId → Bool) :
    ∀ (uids : List UserId) (st : ConnState), WFConn st → uids.Nodup →
      (broadcastRoomAux closed uids st).2.Nodup := by
  intro uids
  induction uids with
  | nil => intro st _ _; simp [broadcastRoomAux]
  | cons u0 rest ih =>
    intro st hwf hnd
    rw [List.nodup_cons] at hnd
    rw [broadcastRoomAux]
    dsimp only
    rw [List.nodup_append]
    refine ⟨?_, ih _ (sendPersonal_WF closed u0 st hwf) hnd.2, ?_⟩
    · rw [sendPersonal_delivered]
      exact (connsOf_nodup hwf u0).filter _
    · intro c hc
      rw [sendPersonal_delivered, List.mem_filter] at hc
      rw [broadcastRoomAux_delivered_iff closed rest _
        (sendPersonal_WF closed u0 st hwf) hnd.2 c]
      rintro ⟨u, hu, hcu, -⟩
      have hne : u ≠ u0 := fun hEq => hnd.1 (hEq ▸ hu)
      rw [sendPersonal_connsOf_ne closed u0 u st hne] at hcu
      exact connsOf_disjoint hwf hne.symm hc.1 hcu

/-- Claim C9: a room broadcast reaches exactly the live connections of
exactly the users in the room membership at broadcast time, each
connection at most once; a user outside the room keeps their registry
entry untouched and none of their connections receives the message; a
connection found closed during the fan-out is pruned from the registry
while the rest are delivered to; the room map itself is unchanged and
the fan-out never aborts. -/
theorem C9_room_broadcast_exact (closed : ConnId → Bool) (room : String)
    (st : ConnState) (hwf : WFConn st)
    (hroom : (roomMembers st room).Nodup) :
    (∀ c, c ∈ (broadcastToRoom closed room st).2 ↔
        ∃ u ∈ roomMembers st room, c ∈ connsOf st u ∧ closed c = false)
    ∧ (broadcastToRoom closed room st).2.Nodup
    ∧ (∀ u ∈ roomMembers st room,
        connsOf (broadcastToRoom closed room st).1 u
          = (connsOf st u).filter (fun c => !closed c))
    ∧ (∀ v, v ∉ roomMembers st room →
        connsOf (broadcastToRoom closed room st).1 v = connsOf st v
          ∧ ∀ c ∈ connsOf st v, c ∉ (broadcastToRoom closed room st).2)
    ∧ (broadcastToRoom closed room st).1.rooms = st.rooms := by
  rw [broadcastToRoom]
  rw [roomMembers] at hroom ⊢
  cases hl : st.rooms.lookup room with
  | none =>
    refine ⟨by simp, by simp, by simp, ?_, rfl⟩
    intro v _
    exact ⟨rfl, by simp⟩
  | some uids =>
    rw [hl] at hroom
    simp only [Option.getD] at hroom
    dsimp only [Option.getD]
    refine ⟨broadcastRoomAux_delivered_iff closed uids st hwf hroom,
      broadcastRoomAux_delivered_nodup closed uids st hwf hroom,
      broadcastRoomAux_connsOf_mem closed uids st hwf hroom, ?_,
      broadcastRoomAux_rooms closed uids st⟩
    intro v hv
    refine ⟨broadcastRoomAux_connsOf_notmem closed uids st v hv, ?_⟩
    intro c hc hmem
    rw [broadcastRoomAux_delivered_iff closed uids st hwf hroom c] at hmem
    obtain ⟨u, hu, hcu, -⟩ := hmem
    have hne : u ≠ v := fun hEq => hv (hEq ▸ hu)
    exact connsOf_disjoint hwf hne hcu hc

/-- A registry with three users, one closed socket, and one two-member
room. -/
def c9Conn : ConnState :=
  { active := [(1, [10, 11]), (2, [20]), (3, [30])],
    rooms := [("r", [1, 2])] }

/-- The closed-socket oracle: connection 11 is already closed. -/
def c9Closed : ConnId → Bool := fun c => c == 11

/-- Witness for C9 on the three-user registry: user 3 is outside the
room, connection 11 is found closed. -/
theorem C9_room_broadcast_exact_witness :
    WFConn c9Conn ∧ (roomMembers c9Conn "r").Nodup
    ∧ ((∀ c, c ∈ (broadcastToRoom c9Closed "r" c9Conn).2 ↔
          ∃ u ∈ roomMembers c9Conn "r", c ∈ connsOf c9Conn u ∧ c9Closed c = false)
      ∧ (broadcastToRoom c9Closed "r" c9Conn).2.Nodup
      ∧ (∀ u ∈ roomMembers c9Conn "r",
          connsOf (broadcastToRoom c9Closed "r" c9Conn).1 u
            = (connsOf c9Conn u).filter (fun c => !c9Closed c))
      ∧ (∀ v, v ∉ roomMembers c9Conn "r" →
          connsOf (broadcastToRoom c9Closed "r" c9Conn).1 v = connsOf c9Conn v
            ∧ ∀ c ∈ connsOf c9Conn v, c ∉ (broadcastToRoom c9Closed "r" c9Conn).2)
      ∧ (broadcastToRoom c9Closed "r" c9Conn).1.rooms = c9Conn.rooms) :=
  ⟨by decide, by decide,
   C9_room_broadcast_exact c9Closed "r" c9Conn (by decide) (by decide)⟩

end Sira
